import Mathlib

/-
Verification development for the InaSAFE hazard-exposure overlay and
classification engine.

The Python source is shallowly embedded as follows:
- Python dicts (feature attribute mappings, statistics tables, keyword
  mappings) become association lists `List (κ × α)` with lookup `dictGet`,
  in-place item assignment `dictSet` and key test `dictHasKey`; a failed
  item lookup (Python KeyError) is modelled through `Option`/`Except`.
- Python floats become `ℚ`; `x / 0.0` raises ZeroDivisionError in Python,
  which is modelled explicitly (`pyDiv`).
- Fallible code returns `Except PyErr _`; a Python `raise` is `.error`.
- A vector layer is the record `VLayer`: its attribute-name list
  (`get_attribute_names()`), its ordered feature-attribute list
  (`get_data()`) and its parallel geometry list (`get_geometry()`).
  Geometry objects themselves live outside the repository (safe.storage,
  safe.common.polygon), so the geometry type is a parameter and the
  external predicate `is_inside_polygon` and the external centroid
  conversion `convert_polygons_to_centroids` are function parameters.
-/

deriving instance DecidableEq for Except

/-- Python exception outcomes used by the embedded code. -/
inductive PyErr where
  | keyError : PyErr
  | indexError : PyErr
  | zeroDivisionError : PyErr
  | runtimeError (msg : String) : PyErr
  | valueError (msg : String) : PyErr
deriving DecidableEq, Repr

/-- Feature attribute mapping: a Python dict from attribute name to numeric
value, embedded as an association list. -/
abbrev Attr := List (String × ℚ)

/-- Python dict item lookup `d[k]`; `none` models a KeyError. -/
def dictGet {κ α : Type} [DecidableEq κ] : List (κ × α) → κ → Option α
  | [], _ => none
  | (k', v) :: rest, k => if k' = k then some v else dictGet rest k

/-- Python dict item assignment `d[k] = v`: replaces the value of an
existing key in place, otherwise appends the new key. -/
def dictSet {κ α : Type} [DecidableEq κ] : List (κ × α) → κ → α → List (κ × α)
  | [], k, v => [(k, v)]
  | (k', v') :: rest, k, v =>
      if k' = k then (k', v) :: rest else (k', v') :: dictSet rest k v

/-- Python `k in d` key test. -/
def dictHasKey {κ α : Type} [DecidableEq κ] (d : List (κ × α)) (k : κ) : Bool :=
  (dictGet d k).isSome

/-- Lift a Python item lookup into the exception monad: a missing key is a
KeyError. -/
def ofOpt {α : Type} : Option α → Except PyErr α
  | some v => .ok v
  | none => .error .keyError

/-- Python float division: `p / a` raises ZeroDivisionError when `a == 0`,
otherwise yields the quotient. -/
def pyDiv (p a : ℚ) : Except PyErr ℚ :=
  if a = 0 then .error .zeroDivisionError else .ok (p / a)

/-- Vector layer as consumed by the impact functions: attribute-name list,
ordered per-feature attribute dicts, parallel geometry list. -/
structure VLayer (γ : Type) where
  attributeNames : List String
  data : List Attr
  geometry : List γ
deriving DecidableEq, Repr

/-- Body of the per-feature loop of
`CategorisedVectorHazardPopulationImpactFunction.add_density`:
`population = att[population_field]; density = population / float(att["area"]);
att["density"] = density`. -/
def addDensityRow (populationField : String) (att : Attr) : Except PyErr Attr := do
  let population ← ofOpt (dictGet att populationField)
  let area ← ofOpt (dictGet att "area")
  let density ← pyDiv population area
  pure (dictSet att "density" density)

/-- The feature loop of `add_density` over the layer data. -/
def addDensityData (populationField : String) : List Attr → Except PyErr (List Attr)
  | [] => .ok []
  | att :: rest => do
      let att' ← addDensityRow populationField att
      let rest' ← addDensityData populationField rest
      pure (att' :: rest')

/-- Embedding of `CategorisedVectorHazardPopulationImpactFunction.add_density`: when the
configured population field is among the layer attribute names, compute
`density = population / area` for every feature and store it under
`"density"`; otherwise raise `RuntimeError("No population field found")`. -/
def addDensity {γ : Type} (populationField : String) (layer : VLayer γ) :
    Except PyErr (VLayer γ) :=
  if populationField ∈ layer.attributeNames then do
    let d ← addDensityData populationField layer.data
    pure { layer with data := d }
  else
    .error (.runtimeError "No population field found")

/-- Inner loop of
`CategorisedVectorHazardPopulationImpactFunction.multiply_density_by_area`:
iterates `enumerate(impact_layer.get_geometry())`, so exactly the first
`numGeoms` feature dicts are visited (`impact_data[index]`, IndexError when
the data list is shorter); each visited feature gets
`att[value_field] = att["density"] * att["area"]` and the running maximum
is updated. -/
def multAux (valueField : String) :
    List Attr → Nat → ℚ → Except PyErr (List Attr × ℚ)
  | data, 0, maxImpactValue => .ok (data, maxImpactValue)
  | [], _ + 1, _ => .error .indexError
  | att :: rest, n + 1, maxImpactValue => do
      let density ← ofOpt (dictGet att "density")
      let area ← ofOpt (dictGet att "area")
      let newImpact := density * area
      let att' := dictSet att valueField newImpact
      let maxNext := if newImpact > maxImpactValue then newImpact else maxImpactValue
      let (rest', m) ← multAux valueField rest n maxNext
      pure (att' :: rest', m)

/-- Embedding of `CategorisedVectorHazardPopulationImpactFunction.multiply_density_by_area`:
recomputes `att[value_field] = density * area` per feature and returns the
layer together with the maximum impact value observed (starting from 0). -/
def multiplyDensityByArea {γ : Type} (valueField : String) (layer : VLayer γ) :
    Except PyErr (VLayer γ × ℚ) := do
  let (d, m) ← multAux valueField layer.data layer.geometry.length 0
  pure ({ layer with data := d }, m)

/-- Attribute names a Python 2 `dict` object actually has (its methods).
`hasattr(d, name)` on a plain dict tests these object attributes, never the
mapping keys, so for an ordinary field name such as `"haz_level"` it is
always `False`. -/
def pyDictObjectAttrNames : List String :=
  ["clear", "copy", "fromkeys", "get", "has_key", "items", "iteritems",
   "iterkeys", "itervalues", "keys", "pop", "popitem", "setdefault",
   "update", "values", "viewitems", "viewkeys", "viewvalues"]

/-- Python `hasattr(att, name)` where `att` is a plain dict: depends only on
the name, not on the dict contents. -/
def hasattrDict (name : String) : Bool :=
  pyDictObjectAttrNames.contains name

/-- Inner loop of
`CategorisedVectorHazardPopulationImpactFunction.assign_hazard_level` for one
hazard polygon: walks the impact centroids in parallel with the impact
attribute dicts; whenever the centroid lies inside the polygon, the guard
`hasattr(impact_attr[impact_index], impact_field) and
impact_attr[impact_index][impact_field] != self.NO_DATA` decides between
raising RuntimeError and assigning the hazard level. Accessing a feature
dict past the end of the data list is an IndexError, and that access only
happens when the centroid is inside the polygon. -/
def assignOneAux {Point HazPoly : Type}
    (impactField : String) (noData hazardLevel : ℚ)
    (isInsidePolygon : Point → HazPoly → Bool) (hazardPoly : HazPoly) :
    List Point → List Attr → Except PyErr (List Attr)
  | [], data => .ok data
  | c :: cs, [] =>
      if isInsidePolygon c hazardPoly then .error .indexError
      else assignOneAux impactField noData hazardLevel isInsidePolygon hazardPoly cs []
  | c :: cs, att :: data =>
      if isInsidePolygon c hazardPoly then
        if hasattrDict impactField then
          match dictGet att impactField with
          | none => .error .keyError
          | some v =>
              if v ≠ noData then
                .error (.runtimeError
                  (impactField ++ " field already defined in impact layer"))
              else do
                let rest ← assignOneAux impactField noData hazardLevel
                  isInsidePolygon hazardPoly cs data
                pure (dictSet att impactField hazardLevel :: rest)
        else do
          let rest ← assignOneAux impactField noData hazardLevel
            isInsidePolygon hazardPoly cs data
          pure (dictSet att impactField hazardLevel :: rest)
      else do
        let rest ← assignOneAux impactField noData hazardLevel
          isInsidePolygon hazardPoly cs data
        pure (att :: rest)

/-- Outer loop of `assign_hazard_level`: for each hazard polygon, read
`hazard_attr[hazard_index][hazard_field]` (IndexError or KeyError when
missing) and run the inner centroid loop. -/
def assignLoop {Point HazPoly : Type}
    (hazardField : String) (noData : ℚ)
    (isInsidePolygon : Point → HazPoly → Bool) (centroids : List Point) :
    List HazPoly → List Attr → List Attr → Except PyErr (List Attr)
  | [], _, data => .ok data
  | _ :: _, [], _ => .error .indexError
  | hazardPoly :: polys, hazardAtt :: hazardAtts, data =>
      match dictGet hazardAtt hazardField with
      | none => .error .keyError
      | some hazardLevel => do
          let data' ← assignOneAux hazardField noData hazardLevel
            isInsidePolygon hazardPoly centroids data
          assignLoop hazardField noData isInsidePolygon centroids polys hazardAtts data'

/-- Embedding of `CategorisedVectorHazardPopulationImpactFunction.assign_hazard_level`.
The external `convert_polygons_to_centroids` is abstracted as the function
parameter `centroidOf` applied to each impact geometry, and the external
`safe.common.polygon.is_inside_polygon` as the parameter `isInsidePolygon`.
Every feature first gets `impact[impact_field] = NO_DATA`, then each hazard
polygon assigns its level to the features whose centroid it contains. -/
def assignHazardLevel {IGeom Point HazPoly : Type}
    (hazardField : String) (noData : ℚ)
    (isInsidePolygon : Point → HazPoly → Bool) (centroidOf : IGeom → Point)
    (impactLayer : VLayer IGeom) (hazardLayer : VLayer HazPoly) :
    Except PyErr (VLayer IGeom) := do
  let impactCentroidsGeom := impactLayer.geometry.map centroidOf
  let data0 := impactLayer.data.map (fun att => dictSet att hazardField noData)
  let d ← assignLoop hazardField noData isInsidePolygon impactCentroidsGeom
    hazardLayer.geometry hazardLayer.data data0
  pure { impactLayer with data := d }

/-- Statistics table of
`CategorisedVectorHazardPopulationImpactFunction.generate_statistics`: a dict
from feature id to a dict from category to accumulated count. -/
abbrev Stats := List (ℚ × List (ℚ × ℚ))

/-- Feature loop of `generate_statistics` with its Python 2
`try: stats[current_id][impact_level] += attr[count] except KeyError: ...`
control flow: a KeyError from the id lookup, the level lookup or the count
lookup inside the `try` falls into the `except` branch, which rebuilds the
row as `initial_stats.copy()` with only the current level set (wiping any
totals already accumulated for that id); a KeyError from the count lookup
inside the `except` branch escapes (in the embedding both count-missing
paths end in the same `.error .keyError` because the run dies either way). -/
def genStatsAux (idField levelField countField : String)
    (initialStats : List (ℚ × ℚ)) :
    List Attr → Stats → Except PyErr Stats
  | [], stats => .ok stats
  | att :: rest, stats => do
      let currentId ← ofOpt (dictGet att idField)
      let impactLevel ← ofOpt (dictGet att levelField)
      let count ← ofOpt (dictGet att countField)
      let stats' :=
        match (dictGet stats currentId).bind (fun row => dictGet row impactLevel),
              dictGet stats currentId with
        | some old, some row =>
            dictSet stats currentId (dictSet row impactLevel (old + count))
        | _, _ =>
            dictSet stats currentId (dictSet initialStats impactLevel count)
      genStatsAux idField levelField countField initialStats rest stats'

/-- Embedding of `CategorisedVectorHazardPopulationImpactFunction.generate_statistics`:
`initial_stats` maps every configured category to 0; the feature loop
accumulates `attr[exposure field]` into `stats[id][level]`. -/
def genStats (categories : List ℚ) (idField levelField countField : String)
    (data : List Attr) : Except PyErr Stats :=
  genStatsAux idField levelField countField
    (categories.foldl (fun d c => dictSet d c 0) []) data []

/-- Lookup of one accumulated total in a `generate_statistics` result. -/
def statsGet (result : Except PyErr Stats) (i c : ℚ) : Option ℚ :=
  match result with
  | .ok stats => (dictGet stats i).bind (fun row => dictGet row c)
  | .error _ => none

/-- Multi-threshold branch of `FloodRasterBuildingFunction.run` (the
`thresholds.enable_parameter` case). The extreme threshold is read by the
code but never compared against: the final `else` already fires above the
high threshold. -/
def classifyMulti (lowThreshold mediumThreshold highThreshold
    extremeThreshold : ℚ) (waterDepth : ℚ) : Nat :=
  if waterDepth ≤ 0 then 0
  else if waterDepth ≤ lowThreshold then 1
  else if waterDepth ≤ mediumThreshold then 2
  else if waterDepth ≤ highThreshold then 3
  else 4

/-- Single-threshold branch of `FloodRasterBuildingFunction.run` (the group
parameter disabled): dry 0, inundated 1 when `water_depth >= threshold`,
wet 2 otherwise. -/
def classifySingle (threshold : ℚ) (waterDepth : ℚ) : Nat :=
  if waterDepth ≤ 0 then 0
  else if threshold ≤ waterDepth then 1
  else 2

/-- Loop of `_group_validator` in
`flood_raster_osm_building_impact.parameter_definitions`, with
`previous_value = None` modelled as `none`: in Python 2 a number is never
`<=` None, so the first value passes unconditionally. -/
def notOrderedAux : Option ℚ → List ℚ → Bool
  | _, [] => false
  | none, v :: rest => notOrderedAux (some v) rest
  | some previousValue, v :: rest =>
      if v ≤ previousValue then true else notOrderedAux (some v) rest

/-- Embedding of `_group_validator`: raises
`ValueError("The thersholds must be ordered from small to big. Found: ...")`
when some value is `<=` its predecessor, returns normally otherwise. -/
def groupValidator (parametersValues : List ℚ) : Except PyErr Unit :=
  if notOrderedAux none parametersValues then
    .error (.valueError
      "The thersholds must be ordered from small to big. Found: ...")
  else
    .ok ()

/-- Python `d.update(e)`: write every key of `e` into `d` in order,
overwriting existing keys. -/
def pyDictUpdate {κ α : Type} [DecidableEq κ]
    (d e : List (κ × α)) : List (κ × α) :=
  e.foldl (fun acc kv => dictSet acc kv.1 kv.2) d

/-- The `my_impact_keywords` dict literal built in
`CategorisedVectorHazardPopulationImpactFunction.run` before
`my_impact_keywords.update(my_exposure_keywords)`. Values are abstract. -/
def impactKeywords {α : Type} (impactSummary impactTable mapTitle targetField
    statisticsType statisticsClasses : α) : List (String × α) :=
  [("impact_summary", impactSummary),
   ("impact_table", impactTable),
   ("map_title", mapTitle),
   ("target_field", targetField),
   ("statistics_type", statisticsType),
   ("statistics_classes", statisticsClasses)]

/-- The keyword mapping stored on the output layer in `run`:
the computed impact keywords updated with the exposure keywords. -/
def runImpactKeywords {α : Type} (impactSummary impactTable mapTitle
    targetField statisticsType statisticsClasses : α)
    (exposureKeywords : List (String × α)) : List (String × α) :=
  pyDictUpdate
    (impactKeywords impactSummary impactTable mapTitle targetField
      statisticsType statisticsClasses)
    exposureKeywords

/-- Helper for substring occurrence: does the first character list stand at
the head of the second? -/
def listStartsWith {α : Type} [DecidableEq α] : List α → List α → Bool
  | [], _ => true
  | _ :: _, [] => false
  | a :: as, b :: bs => a = b && listStartsWith as bs

/-- Helper for substring occurrence: does the first list occur contiguously
anywhere in the second? -/
def listOccursIn {α : Type} [DecidableEq α] : List α → List α → Bool
  | ns, [] => ns.isEmpty
  | ns, b :: bs => listStartsWith ns (b :: bs) || listOccursIn ns bs

/-- Substring occurrence test used to formalise "the error message names the
field". -/
def strOccursIn (needle haystack : String) : Bool :=
  listOccursIn needle.data haystack.data

/-- State of the original exposure layer object after
`CategorisedVectorHazardPopulationImpactFunction.run`. In `run`, the
exposure layer itself is passed to `add_density`, which mutates its feature
dicts in place and reassigns `exposure_layer.data`; only afterwards does
`deintersect_exposure` take the working copy (`exposure_layer.copy()`, an
external Layer method, modelled from the spec as a fresh independent copy)
on which `assign_hazard_level` and `multiply_density_by_area` operate. The
original layer object therefore ends the run in exactly the state
`add_density` leaves it in. -/
def exposureLayerAfterRun {γ : Type} (populationField : String)
    (exposureLayer : VLayer γ) : Except PyErr (VLayer γ) :=
  addDensity populationField exposureLayer

/-- Does some feature of the data carry the given id? Mirrors whether
`generate_statistics` ever creates the group row for that id. -/
def groupPresent (idField : String) (data : List Attr) (i : ℚ) : Bool :=
  data.any (fun att => decide (dictGet att idField = some i))

/-- Total count over the features with the given id and class: the intended
meaning of one cell of the statistics table. -/
def sumCounts (idField levelField countField : String) (data : List Attr)
    (i c : ℚ) : ℚ :=
  ((data.filter (fun att =>
      decide (dictGet att idField = some i) &&
        decide (dictGet att levelField = some c))).filterMap
    (fun att => dictGet att countField)).sum

/-- Exposure layer with one feature whose centroid lies inside two
overlapping hazard polygons (trivial geometry; both polygons contain it). -/
def overlapImpactLayer : VLayer Unit :=
  { attributeNames := ["id", "pop", "area"],
    data := [[("id", 1), ("pop", 100), ("area", 2)]],
    geometry := [()] }

/-- Hazard layer of two overlapping polygons with levels 1 and 2. -/
def overlapHazardLayer : VLayer Unit :=
  { attributeNames := ["haz_level"],
    data := [[("haz_level", 1)], [("haz_level", 2)]],
    geometry := [(), ()] }

/-- Exposure layer whose attribute names lack the configured population
field `pop_count`. -/
def missingFieldLayer : VLayer Unit :=
  { attributeNames := ["id", "area"],
    data := [[("id", 1), ("area", 2)]],
    geometry := [()] }

/-- Minimal exposure layer used for the mutation and round-trip witnesses. -/
def smallExposureLayer : VLayer Unit :=
  { attributeNames := ["pop", "area"],
    data := [[("pop", 100), ("area", 2)]],
    geometry := [()] }

/-- Classified feature whose class 0 lies in the configured categories. -/
def statsAttInCat : Attr := [("id", 1), ("haz_level", 0), ("pop", 5)]

/-- Classified feature whose class 7 lies outside the configured categories
`[-9999, 0, 1, 2, 3]` of the population impact function. -/
def statsAttOutCat : Attr := [("id", 1), ("haz_level", 7), ("pop", 3)]

/-- Classified feature used by the order-independence witness. -/
def statsAttA : Attr := [("id", 1), ("haz_level", 0), ("pop", 5)]

/-- Second classified feature used by the order-independence witness. -/
def statsAttB : Attr := [("id", 2), ("haz_level", 1), ("pop", 3)]

/-- Invariant tying an intermediate statistics dict of `generate_statistics`
to the features processed so far: a group row exists exactly for the ids
seen, and an existing row maps every configured category to the total count
accumulated for that id and category (and has no other keys). -/
def statsInv (cats : List ℚ) (idField levelField countField : String)
    (seen : List Attr) (stats : Stats) : Prop :=
  ∀ i : ℚ,
    (groupPresent idField seen i = false → dictGet stats i = none) ∧
    (groupPresent idField seen i = true →
      ∃ row, dictGet stats i = some row ∧
        ∀ c : ℚ, dictGet row c =
          if c ∈ cats then
            some (sumCounts idField levelField countField seen i c)
          else none)

theorem dictGet_dictSet {κ α : Type} [DecidableEq κ]
    (d : List (κ × α)) (k k' : κ) (v : α) :
    dictGet (dictSet d k v) k' = if k = k' then some v else dictGet d k' := by
  induction d with
  | nil => simp [dictGet, dictSet]
  | cons a rest ih =>
      obtain ⟨ka, va⟩ := a
      by_cases hak : ka = k
      · subst hak
        simp only [dictSet, if_pos rfl, dictGet]
        by_cases h : ka = k' <;> simp [h]
      · simp only [dictSet, if_neg hak, dictGet, ih]
        by_cases hak' : ka = k'
        · subst hak'
          simp [Ne.symm hak]
        · simp [hak']

theorem dictGet_foldl_zero (cats : List ℚ) (d : List (ℚ × ℚ)) (c : ℚ) :
    dictGet (cats.foldl (fun acc x => dictSet acc x 0) d) c =
      if c ∈ cats then some 0 else dictGet d c := by
  induction cats generalizing d with
  | nil => simp
  | cons x rest ih =>
      simp only [List.foldl_cons, ih, dictGet_dictSet, List.mem_cons]
      by_cases hc : c ∈ rest
      · simp [hc]
      · by_cases hxc : x = c
        · simp [hxc, hc]
        · simp [hxc, hc, Ne.symm hxc]

theorem notOrderedAux_some_false_iff (l : List ℚ) :
    ∀ p : ℚ, notOrderedAux (some p) l = false ↔ List.Chain' (· < ·) (p :: l) := by
  induction l with
  | nil => simp [notOrderedAux]
  | cons v rest ih =>
      intro p
      by_cases hvp : v ≤ p
      · simp only [notOrderedAux, if_pos hvp, List.chain'_cons]
        constructor
        · intro h; cases h
        · rintro ⟨h, -⟩; exact absurd hvp (not_le.mpr h)
      · simp only [notOrderedAux, if_neg hvp, List.chain'_cons, ih v]
        constructor
        · intro h; exact ⟨lt_of_not_le hvp, h⟩
        · rintro ⟨-, h⟩; exact h

theorem notOrderedAux_none_false_iff (l : List ℚ) :
    notOrderedAux none l = false ↔ List.Chain' (· < ·) l := by
  cases l with
  | nil => simp [notOrderedAux]
  | cons v rest => simpa [notOrderedAux] using notOrderedAux_some_false_iff rest v

/-- C6. Threshold configuration validation: `_group_validator` raises a
ValueError exactly when some threshold value is less than or equal to its
predecessor, i.e. when the ordered value sequence is not strictly
increasing; every strictly increasing sequence passes without error. -/
theorem group_validator_strictly_increasing (parametersValues : List ℚ) :
    ((∃ msg, groupValidator parametersValues = .error (.valueError msg)) ↔
      ¬ List.Chain' (· < ·) parametersValues) ∧
    (List.Chain' (· < ·) parametersValues →
      groupValidator parametersValues = .ok ()) := by
  constructor
  · constructor
    · intro ⟨msg, hmsg⟩ hchain
      rw [groupValidator] at hmsg
      rcases h : notOrderedAux none parametersValues with _ | _
      · rw [h] at hmsg; simp at hmsg
      · exact absurd ((notOrderedAux_none_false_iff parametersValues).mpr hchain)
          (by simp [h])
    · intro hchain
      refine ⟨"The thersholds must be ordered from small to big. Found: ...", ?_⟩
      rw [groupValidator]
      rcases h : notOrderedAux none parametersValues with _ | _
      · exact absurd ((notOrderedAux_none_false_iff parametersValues).mp h) hchain
      · rw [if_pos rfl]
  · intro hchain
    rw [groupValidator,
      if_neg (by simp [(notOrderedAux_none_false_iff parametersValues).mpr hchain])]

/-- C6 witness: the default thresholds 0.2, 1.0, 1.5, 2.0 are strictly
increasing and pass validation. -/
theorem group_validator_strictly_increasing_witness :
    groupValidator [1/5, 1, 3/2, 2] = .ok () :=
  (group_validator_strictly_increasing [1/5, 1, 3/2, 2]).2
    (by norm_num [List.chain'_cons, List.chain'_singleton])

/-- C2. Multi-threshold classification in threshold mode with enabled
thresholds t1 < t2 < t3 < t4 (positive depth cut-points): a depth v is
class 0 when v <= 0, class 1 when 0 < v <= t1, class 2 when t1 < v <= t2,
class 3 when t2 < v <= t3 and class 4 when v > t4; with the default
thresholds [0.2, 1.0, 1.5, 2.0] the depths [-0.1, 0.0, 0.2, 0.9, 1.5, 3.0]
classify to [0, 0, 1, 2, 3, 4]. -/
theorem multi_threshold_classification :
    (∀ t1 t2 t3 t4 v : ℚ, 0 < t1 → t1 < t2 → t2 < t3 → t3 < t4 →
      (v ≤ 0 → classifyMulti t1 t2 t3 t4 v = 0) ∧
      (0 < v → v ≤ t1 → classifyMulti t1 t2 t3 t4 v = 1) ∧
      (t1 < v → v ≤ t2 → classifyMulti t1 t2 t3 t4 v = 2) ∧
      (t2 < v → v ≤ t3 → classifyMulti t1 t2 t3 t4 v = 3) ∧
      (t4 < v → classifyMulti t1 t2 t3 t4 v = 4)) ∧
    [(-1/10 : ℚ), 0, 1/5, 9/10, 3/2, 3].map (classifyMulti (1/5) 1 (3/2) 2) =
      [0, 0, 1, 2, 3, 4] := by
  constructor
  · intro t1 t2 t3 t4 v h1 h12 h23 h34
    refine ⟨?_, ?_, ?_, ?_, ?_⟩ <;>
      · intros
        unfold classifyMulti
        split_ifs <;> first | rfl | linarith
  · simp only [List.map_cons, List.map_nil, classifyMulti]
    norm_num

/-- C2 witness: with the default thresholds, depth 0.9 is class 2. -/
theorem multi_threshold_classification_witness :
    classifyMulti (1/5) 1 (3/2) 2 (9/10) = 2 :=
  ((multi_threshold_classification.1 (1/5) 1 (3/2) 2 (9/10)
    (by norm_num) (by norm_num) (by norm_num) (by norm_num)).2.2.1
    (by norm_num) (by norm_num))

/-- C3 counterexample: in single-threshold mode (multiple-thresholds group
disabled) with threshold 1.0, a depth exactly equal to the threshold is
classified 1 (flooded), the class above the cut-point, not 2 (wet), the
class below it — so a boundary value does not belong to the lower class. -/
theorem single_threshold_boundary_counterexample :
    classifySingle 1 1 = 1 ∧ classifySingle 1 1 ≠ 2 := by
  norm_num [classifySingle]

/-- C3 amended: in multi-threshold mode a value exactly equal to a threshold
classifies into the lower class (closed-upper semantics); in
single-threshold mode a value exactly equal to the threshold classifies as
flooded (class 1), the class above the cut-point, because the comparison is
`water_depth >= threshold`. -/
theorem threshold_boundary_amended :
    (∀ t1 t2 t3 t4 : ℚ, 0 < t1 → t1 < t2 → t2 < t3 →
      classifyMulti t1 t2 t3 t4 t1 = 1 ∧
      classifyMulti t1 t2 t3 t4 t2 = 2 ∧
      classifyMulti t1 t2 t3 t4 t3 = 3) ∧
    (∀ t : ℚ, 0 < t → classifySingle t t = 1) := by
  constructor
  · intro t1 t2 t3 t4 h1 h12 h23
    refine ⟨?_, ?_, ?_⟩ <;>
      · unfold classifyMulti
        split_ifs <;> first | rfl | linarith
  · intro t ht
    unfold classifySingle
    split_ifs <;> first | rfl | linarith

/-- C3 amended witness: with the default thresholds 0.2, 1.0, 1.5 a depth of
exactly 0.2 is class 1, and in single-threshold mode depth 1.0 at threshold
1.0 is class 1. -/
theorem threshold_boundary_amended_witness :
    classifyMulti (1/5) 1 (3/2) 2 (1/5) = 1 ∧ classifySingle 1 1 = 1 :=
  ⟨(threshold_boundary_amended.1 (1/5) 1 (3/2) 2
      (by norm_num) (by norm_num) (by norm_num)).1,
    threshold_boundary_amended.2 1 (by norm_num)⟩

theorem mem_keys_of_dictGet_eq_some {κ α : Type} [DecidableEq κ]
    (d : List (κ × α)) (k : κ) (w : α) (h : dictGet d k = some w) :
    k ∈ d.map Prod.fst := by
  induction d with
  | nil => cases h
  | cons a rest ih =>
      obtain ⟨ka, va⟩ := a
      simp only [dictGet] at h
      by_cases hka : ka = k
      · simp [hka]
      · rw [if_neg hka] at h
        simp only [List.map_cons, List.mem_cons]
        exact Or.inr (ih h)

theorem dictGet_pyDictUpdate_not_mem {κ α : Type} [DecidableEq κ]
    (e d : List (κ × α)) (k : κ) (hk : dictHasKey e k = false) :
    dictGet (pyDictUpdate d e) k = dictGet d k := by
  induction e generalizing d with
  | nil => simp [pyDictUpdate]
  | cons a rest ih =>
      obtain ⟨ka, va⟩ := a
      simp only [dictHasKey, dictGet, Option.isSome] at hk
      by_cases hka : ka = k
      · rw [if_pos hka] at hk; cases hk
      · rw [if_neg hka] at hk
        have hk2 : dictHasKey rest k = false := by
          simp only [dictHasKey]
          cases h : dictGet rest k
          · rfl
          · rw [h] at hk; cases hk
        simp only [pyDictUpdate, List.foldl_cons]
        rw [show (List.foldl (fun acc kv => dictSet acc kv.1 kv.2)
            (dictSet d ka va) rest) = pyDictUpdate (dictSet d ka va) rest from rfl,
          ih (dictSet d ka va) hk2, dictGet_dictSet, if_neg hka]

theorem dictGet_pyDictUpdate_mem {κ α : Type} [DecidableEq κ]
    (e d : List (κ × α)) (k : κ)
    (hnd : (e.map Prod.fst).Nodup) (hk : dictHasKey e k = true) :
    dictGet (pyDictUpdate d e) k = dictGet e k := by
  induction e generalizing d with
  | nil => simp [dictHasKey, dictGet] at hk
  | cons a rest ih =>
      obtain ⟨ka, va⟩ := a
      simp only [List.map_cons, List.nodup_cons] at hnd
      obtain ⟨hka_rest, hnd_rest⟩ := hnd
      simp only [pyDictUpdate, List.foldl_cons]
      rw [show (List.foldl (fun acc kv => dictSet acc kv.1 kv.2)
          (dictSet d ka va) rest) = pyDictUpdate (dictSet d ka va) rest from rfl]
      by_cases hrest : dictHasKey rest k = true
      · have hka : ka ≠ k := by
          intro heq
          subst heq
          simp only [dictHasKey, Option.isSome] at hrest
          rcases hg : dictGet rest ka with _ | w
          · rw [hg] at hrest; cases hrest
          · exact hka_rest (mem_keys_of_dictGet_eq_some rest ka w hg)
        rw [ih (dictSet d ka va) hnd_rest hrest, dictGet, if_neg hka]
      · have hrest2 : dictHasKey rest k = false := by
          cases h : dictHasKey rest k
          · rfl
          · exact absurd h hrest
        have hka : ka = k := by
          simp only [dictHasKey, dictGet, Option.isSome] at hk
          by_cases h : ka = k
          · exact h
          · rw [if_neg h] at hk
            simp only [dictHasKey, Option.isSome] at hrest2
            rcases hg : dictGet rest k with _ | w
            · rw [hg] at hk; cases hk
            · rw [hg] at hrest2; cases hrest2
        subst hka
        rw [dictGet_pyDictUpdate_not_mem rest (dictSet d ka va) ka hrest2,
          dictGet_dictSet, if_pos rfl, dictGet, if_pos rfl]

/-- C10. The impact keywords mapping built in `run` is updated with the
exposure layer keywords after being built: for every key present in both
mappings, the output keywords carry the exposure layer value, overwriting
the computed impact value for that key. -/
theorem exposure_keywords_override {α : Type}
    (impactSummary impactTable mapTitle targetField statisticsType
      statisticsClasses : α)
    (exposureKeywords : List (String × α)) (k : String)
    (hnd : (exposureKeywords.map Prod.fst).Nodup)
    (hBoth : dictHasKey (impactKeywords impactSummary impactTable mapTitle
        targetField statisticsType statisticsClasses) k = true ∧
      dictHasKey exposureKeywords k = true) :
    dictGet (runImpactKeywords impactSummary impactTable mapTitle targetField
        statisticsType statisticsClasses exposureKeywords) k =
      dictGet exposureKeywords k :=
  dictGet_pyDictUpdate_mem exposureKeywords _ k hnd hBoth.2

/-- C10 witness: the exposure keywords value of `map_title` overrides the
computed map title on the output layer. -/
theorem exposure_keywords_override_witness :
    dictGet (runImpactKeywords (1 : ℚ) 2 3 4 5 6 [("map_title", 42)])
        "map_title" = some 42 := by
  rw [exposure_keywords_override (1 : ℚ) 2 3 4 5 6 [("map_title", 42)]
    "map_title" (by simp) ⟨by simp [dictHasKey, impactKeywords, dictGet], by
      simp [dictHasKey, dictGet]⟩]
  simp [dictGet]

/-- C7 counterexample: with the configured population field `pop_count`
absent from the exposure layer, `add_density` raises
`RuntimeError("No population field found")`, a fixed message that does not
name the missing field. -/
theorem add_density_missing_field_counterexample :
    addDensity "pop_count" missingFieldLayer =
      .error (.runtimeError "No population field found") ∧
    strOccursIn "pop_count" "No population field found" = false := by
  constructor
  · simp [addDensity, missingFieldLayer]
  · decide

/-- C8 counterexample: a feature with `area = -1 <= 0` does not make the
density computation fail; `add_density` stores the (negative) density
`-100` and returns normally. -/
theorem add_density_negative_area_counterexample :
    addDensityRow "pop" [("pop", 100), ("area", -1)] =
      .ok [("pop", 100), ("area", -1), ("density", -100)] := by
  simp [addDensityRow, ofOpt, dictGet, dictSet, pyDiv, bind, Except.bind,
    pure, Except.pure]
  norm_num

/-- C8 amended: the density computation of `add_density` fails (with a
ZeroDivisionError) exactly when the feature area is zero; for any nonzero
area, including negative ones, a density value `population / area` is
stored. -/
theorem add_density_zero_area (populationField : String) (att : Attr)
    (p a : ℚ) (hp : dictGet att populationField = some p)
    (ha : dictGet att "area" = some a) :
    (a = 0 → addDensityRow populationField att = .error .zeroDivisionError) ∧
    (a ≠ 0 → addDensityRow populationField att =
      .ok (dictSet att "density" (p / a))) := by
  constructor
  · intro h0
    subst h0
    simp [addDensityRow, hp, ha, ofOpt, pyDiv, bind, Except.bind]
  · intro hne
    simp [addDensityRow, hp, ha, ofOpt, pyDiv, hne, bind, Except.bind,
      pure, Except.pure]

/-- C8 amended witness: a zero area raises ZeroDivisionError. -/
theorem add_density_zero_area_witness :
    addDensityRow "pop" [("pop", 100), ("area", 0)] =
      .error .zeroDivisionError :=
  (add_density_zero_area "pop" [("pop", 100), ("area", 0)] 100 0
    (by simp [dictGet]) (by simp [dictGet])).1 rfl

/-- C1. A run of `assign_hazard_level` on two overlapping hazard polygons
(levels 1 then 2) that both contain the single exposure feature returns
normally with the second level assigned (last polygon wins) instead of
raising the RuntimeError the overlap guard intends: the guard
`hasattr(impact_attr[impact_index], impact_field)` tests object attributes
of a dict, which never include the key `haz_level`, so the raise branch is
unreachable. -/
theorem assign_overlap_last_wins :
    assignHazardLevel "haz_level" (-9999) (fun _ _ => true)
        (fun g : Unit => g) overlapImpactLayer overlapHazardLayer =
      .ok { overlapImpactLayer with
        data := [[("id", 1), ("pop", 100), ("area", 2), ("haz_level", 2)]] } := by
  simp [assignHazardLevel, assignLoop, assignOneAux, hasattrDict,
    pyDictObjectAttrNames, dictGet, dictSet, overlapImpactLayer,
    overlapHazardLayer, bind, Except.bind, pure, Except.pure]

theorem addDensityData_chr (populationField : String) (data : List Attr)
    (h : ∀ att ∈ data, ∃ p a, dictGet att populationField = some p ∧
      dictGet att "area" = some a ∧ a ≠ 0) :
    ∃ d1, addDensityData populationField data = .ok d1 ∧
      d1.length = data.length ∧
      ∀ i, d1.get? i = (data.get? i).map (fun att =>
        dictSet att "density"
          (((dictGet att populationField).getD 0) /
            ((dictGet att "area").getD 0))) := by
  induction data with
  | nil => exact ⟨[], rfl, rfl, fun i => by simp⟩
  | cons att rest ih =>
      obtain ⟨p, a, hp, ha, hane⟩ := h att (List.mem_cons_self att rest)
      obtain ⟨d1, hd1, hlen, hptw⟩ := ih (fun x hx => h x (List.mem_cons_of_mem att hx))
      refine ⟨dictSet att "density" (p / a) :: d1, ?_, by simp [hlen], ?_⟩
      · simp only [addDensityData, addDensityRow, hp, ha, ofOpt, pyDiv,
          if_neg hane, hd1, bind, Except.bind, pure, Except.pure]
      · intro i
        cases i with
        | zero => simp [hp, ha]
        | succ j => simpa using hptw j

/-- C7 amended: when the configured population field is absent from the
exposure layer attribute names, `add_density` raises a RuntimeError whose
message is the fixed text `No population field found` (it does not name
the configured field); when the field is present (and every feature carries
the field and a nonzero area), no error is raised and the returned layer
has a `density` attribute on every feature. -/
theorem add_density_field_check {γ : Type} (populationField : String)
    (layer : VLayer γ) :
    (populationField ∉ layer.attributeNames →
      addDensity populationField layer =
        .error (.runtimeError "No population field found")) ∧
    (populationField ∈ layer.attributeNames →
      (∀ att ∈ layer.data, ∃ p a, dictGet att populationField = some p ∧
        dictGet att "area" = some a ∧ a ≠ 0) →
      ∃ d1, addDensity populationField layer =
          .ok { layer with data := d1 } ∧
        ∀ att' ∈ d1, dictHasKey att' "density" = true) := by
  constructor
  · intro hnotmem
    simp [addDensity, hnotmem]
  · intro hmem hfeat
    obtain ⟨d1, hd1, hlen, hptw⟩ := addDensityData_chr populationField layer.data hfeat
    refine ⟨d1, ?_, ?_⟩
    · simp [addDensity, hmem, hd1, bind, Except.bind, pure, Except.pure]
    · intro att' hatt'
      obtain ⟨i, hi⟩ := List.mem_iff_get?.mp hatt'
      have := hptw i
      rw [hi] at this
      rcases hg : layer.data.get? i with _ | att
      · rw [hg] at this; cases this
      · rw [hg] at this
        simp only [Option.map] at this
        cases this
        simp [dictHasKey, dictGet_dictSet]

/-- C7 amended witness: a layer carrying the `pop` field gets a density on
its feature. -/
theorem add_density_field_check_witness :
    ∃ d1, addDensity "pop" smallExposureLayer =
        .ok { smallExposureLayer with data := d1 } ∧
      ∀ att' ∈ d1, dictHasKey att' "density" = true :=
  (add_density_field_check "pop" smallExposureLayer).2
    (by simp [smallExposureLayer])
    (by
      intro att hatt
      simp only [smallExposureLayer, List.mem_singleton] at hatt
      subst hatt
      exact ⟨100, 2, by simp [dictGet], by simp [dictGet], by norm_num⟩)

/-- C9 counterexample: after the pipeline, the original exposure layer data
is not what it was before the run: `add_density` has mutated the original
layer in place (before `deintersect_exposure` makes the working copy),
adding a `density` attribute. -/
theorem original_layer_mutated_counterexample :
    exposureLayerAfterRun "pop" smallExposureLayer =
      .ok { smallExposureLayer with
        data := [[("pop", 100), ("area", 2), ("density", 50)]] } ∧
    [[("pop", 100), ("area", 2), ("density", 50)]] ≠
      smallExposureLayer.data := by
  constructor
  · simp [exposureLayerAfterRun, addDensity, smallExposureLayer,
      addDensityData, addDensityRow, ofOpt, dictGet, dictSet, pyDiv,
      bind, Except.bind, pure, Except.pure]
    norm_num
  · simp [smallExposureLayer]

/-- C9 amended: `assign_hazard_level` and `multiply_density_by_area` operate
on the working copy made by `deintersect_exposure`, but `add_density` runs
on the original exposure layer first and mutates it in place: after the
run the original layer attribute data differs from its pre-run state
exactly by the added `density` attribute (value `count / area`) on every
feature, all other attributes and the geometry unchanged. -/
theorem original_layer_density_added {γ : Type} (populationField : String)
    (layer : VLayer γ) (hmem : populationField ∈ layer.attributeNames)
    (hfeat : ∀ att ∈ layer.data, ∃ p a,
      dictGet att populationField = some p ∧
      dictGet att "area" = some a ∧ a ≠ 0) :
    ∃ layerAfter, exposureLayerAfterRun populationField layer = .ok layerAfter ∧
      layerAfter.attributeNames = layer.attributeNames ∧
      layerAfter.geometry = layer.geometry ∧
      layerAfter.data.length = layer.data.length ∧
      ∀ i, layerAfter.data.get? i = (layer.data.get? i).map (fun att =>
        dictSet att "density"
          (((dictGet att populationField).getD 0) /
            ((dictGet att "area").getD 0))) := by
  obtain ⟨d1, hd1, hlen, hptw⟩ := addDensityData_chr populationField layer.data hfeat
  refine ⟨{ layer with data := d1 }, ?_, rfl, rfl, hlen, hptw⟩
  simp [exposureLayerAfterRun, addDensity, hmem, hd1, bind, Except.bind,
    pure, Except.pure]

/-- C9 amended witness: the concrete small layer after the run carries the
density 50 = 100 / 2 on its single feature. -/
theorem original_layer_density_added_witness :
    ∃ layerAfter, exposureLayerAfterRun "pop" smallExposureLayer =
        .ok layerAfter ∧
      layerAfter.attributeNames = smallExposureLayer.attributeNames ∧
      layerAfter.geometry = smallExposureLayer.geometry ∧
      layerAfter.data.length = smallExposureLayer.data.length ∧
      ∀ i, layerAfter.data.get? i = (smallExposureLayer.data.get? i).map
        (fun att => dictSet att "density"
          (((dictGet att "pop").getD 0) / ((dictGet att "area").getD 0))) :=
  original_layer_density_added "pop" smallExposureLayer
    (by simp [smallExposureLayer])
    (by
      intro att hatt
      simp only [smallExposureLayer, List.mem_singleton] at hatt
      subst hatt
      exact ⟨100, 2, by simp [dictGet], by simp [dictGet], by norm_num⟩)

theorem multAux_chr (valueField : String) (d1 : List Attr)
    (h : ∀ att ∈ d1, (dictGet att "density").isSome = true ∧
      (dictGet att "area").isSome = true) :
    ∀ maxV : ℚ, ∃ d2 m, multAux valueField d1 d1.length maxV = .ok (d2, m) ∧
      d2.length = d1.length ∧
      ∀ i, d2.get? i = (d1.get? i).map (fun att =>
        dictSet att valueField
          (((dictGet att "density").getD 0) * ((dictGet att "area").getD 0))) := by
  induction d1 with
  | nil => exact fun maxV => ⟨[], maxV, rfl, rfl, fun i => by simp⟩
  | cons att rest ih =>
      intro maxV
      obtain ⟨hdens, harea⟩ := h att (List.mem_cons_self att rest)
      rcases hd : dictGet att "density" with _ | dens
      · rw [hd] at hdens; cases hdens
      rcases ha : dictGet att "area" with _ | ar
      · rw [ha] at harea; cases harea
      obtain ⟨d2, m, hmult, hlen, hptw⟩ :=
        ih (fun x hx => h x (List.mem_cons_of_mem att hx))
          (if dens * ar > maxV then dens * ar else maxV)
      refine ⟨dictSet att valueField (dens * ar) :: d2, m, ?_, by simp [hlen], ?_⟩
      · simp only [List.length_cons, multAux, hd, ha, ofOpt, hmult,
          bind, Except.bind, pure, Except.pure]
      · intro i
        cases i with
        | zero => simp [hd, ha]
        | succ j => simpa using hptw j

/-- C5. Density round-trip: on a layer that carries the population field,
whose features all have the population field and a positive area, and whose
geometry and data sequences are parallel, composing `add_density` with
`multiply_density_by_area` (geometry unchanged in between) reproduces the
original population count in the exposure field of every feature:
`(count / area) * area = count` (exactly, over exact rationals). -/
theorem density_round_trip {γ : Type} (populationField : String)
    (layer : VLayer γ)
    (hmem : populationField ∈ layer.attributeNames)
    (hlen : layer.geometry.length = layer.data.length)
    (hfeat : ∀ att ∈ layer.data, ∃ p a,
      dictGet att populationField = some p ∧
      dictGet att "area" = some a ∧ 0 < a) :
    ∃ layer1 layer2 maxV,
      addDensity populationField layer = .ok layer1 ∧
      multiplyDensityByArea populationField layer1 = .ok (layer2, maxV) ∧
      layer2.data.length = layer.data.length ∧
      ∀ i, (layer2.data.get? i).bind (fun att => dictGet att populationField) =
        (layer.data.get? i).bind (fun att => dictGet att populationField) := by
  have hfeat' : ∀ att ∈ layer.data, ∃ p a,
      dictGet att populationField = some p ∧
      dictGet att "area" = some a ∧ a ≠ 0 :=
    fun att hatt => by
      obtain ⟨p, a, hp, ha, hpos⟩ := hfeat att hatt
      exact ⟨p, a, hp, ha, ne_of_gt hpos⟩
  obtain ⟨d1, hd1, hlen1, hptw1⟩ :=
    addDensityData_chr populationField layer.data hfeat'
  have hd1feat : ∀ att1 ∈ d1, (dictGet att1 "density").isSome = true ∧
      (dictGet att1 "area").isSome = true := by
    intro att1 hatt1
    obtain ⟨i, hi⟩ := List.mem_iff_get?.mp hatt1
    have hp1 := hptw1 i
    rw [hi] at hp1
    rcases hg : layer.data.get? i with _ | att
    · rw [hg] at hp1; cases hp1
    · rw [hg] at hp1
      simp only [Option.map] at hp1
      cases hp1
      obtain ⟨p, a, hp, ha, _⟩ :=
        hfeat' att (List.mem_iff_get?.mpr ⟨i, hg⟩)
      constructor
      · simp [dictGet_dictSet]
      · rw [dictGet_dictSet, if_neg (by decide)]
        simp [ha]
  obtain ⟨d2, m, hmult, hlen2, hptw2⟩ := multAux_chr populationField d1 hd1feat 0
  refine ⟨{ layer with data := d1 }, { layer with data := d2 }, m, ?_, ?_, ?_, ?_⟩
  · simp [addDensity, hmem, hd1, bind, Except.bind, pure, Except.pure]
  · have hgl : d1.length = layer.geometry.length := by rw [hlen1, hlen]
    simp only [multiplyDensityByArea, bind, Except.bind]
    rw [← hgl, hmult]
    rfl
  · rw [show ({ layer with data := d2 } : VLayer γ).data = d2 from rfl,
      hlen2, hlen1]
  · intro i
    rw [show ({ layer with data := d2 } : VLayer γ).data = d2 from rfl]
    rcases hg : layer.data.get? i with _ | att
    · rw [hptw2 i, hptw1 i, hg]
      rfl
    · obtain ⟨p, a, hp, ha, hane⟩ :=
        hfeat' att (List.mem_iff_get?.mpr ⟨i, hg⟩)
      simp only [hptw2 i, hptw1 i, hg, Option.map, Option.bind]
      rw [dictGet_dictSet, if_pos rfl]
      rw [show dictGet (dictSet att "density"
          ((dictGet att populationField).getD 0 / (dictGet att "area").getD 0))
          "density" = some ((dictGet att populationField).getD 0 /
            (dictGet att "area").getD 0) from by rw [dictGet_dictSet, if_pos rfl]]
      rw [show dictGet (dictSet att "density"
          ((dictGet att populationField).getD 0 / (dictGet att "area").getD 0))
          "area" = dictGet att "area" from by
        rw [dictGet_dictSet, if_neg (by decide)]]
      rw [hp, ha]
      simp only [Option.getD]
      rw [div_mul_cancel₀ p hane]

/-- C5 witness: on the concrete one-feature layer with count 100 and area 2
the composed stages reproduce the count 100. -/
theorem density_round_trip_witness :
    ∃ layer1 layer2 maxV,
      addDensity "pop" smallExposureLayer = .ok layer1 ∧
      multiplyDensityByArea "pop" layer1 = .ok (layer2, maxV) ∧
      layer2.data.length = smallExposureLayer.data.length ∧
      ∀ i, (layer2.data.get? i).bind (fun att => dictGet att "pop") =
        (smallExposureLayer.data.get? i).bind (fun att => dictGet att "pop") :=
  density_round_trip "pop" smallExposureLayer
    (by simp [smallExposureLayer]) (by simp [smallExposureLayer])
    (by
      intro att hatt
      simp only [smallExposureLayer, List.mem_singleton] at hatt
      subst hatt
      exact ⟨100, 2, by simp [dictGet], by simp [dictGet], by norm_num⟩)

theorem groupPresent_append (idField : String) (seen : List Attr) (att : Attr)
    (i : ℚ) :
    groupPresent idField (seen ++ [att]) i =
      (groupPresent idField seen i || decide (dictGet att idField = some i)) := by
  simp [groupPresent, List.any_append]

theorem sumCounts_append (idField levelField countField : String)
    (seen : List Attr) (att : Attr) (i c v0 : ℚ)
    (hcnt : dictGet att countField = some v0) :
    sumCounts idField levelField countField (seen ++ [att]) i c =
      sumCounts idField levelField countField seen i c +
        (if dictGet att idField = some i ∧ dictGet att levelField = some c
          then v0 else 0) := by
  unfold sumCounts
  rw [List.filter_append, List.filterMap_append, List.sum_append]
  congr 1
  by_cases hid : dictGet att idField = some i
  · by_cases hlvl : dictGet att levelField = some c
    · rw [if_pos ⟨hid, hlvl⟩]
      simp [List.filter, hid, hlvl, List.filterMap, hcnt]
    · rw [if_neg (fun h => hlvl h.2)]
      simp [List.filter, hid, hlvl, List.filterMap]
  · rw [if_neg (fun h => hid h.1)]
    simp [List.filter, hid, List.filterMap]

theorem sumCounts_of_not_present (idField levelField countField : String)
    (seen : List Attr) (i c : ℚ)
    (h : groupPresent idField seen i = false) :
    sumCounts idField levelField countField seen i c = 0 := by
  unfold sumCounts
  have hfil : seen.filter (fun att =>
      decide (dictGet att idField = some i) &&
        decide (dictGet att levelField = some c)) = [] := by
    rw [List.filter_eq_nil_iff]
    intro att hatt
    simp only [Bool.and_eq_true, decide_eq_true_eq, not_and]
    intro hid _
    have hany : groupPresent idField seen i = true := by
      unfold groupPresent
      exact List.any_eq_true.mpr ⟨att, hatt, by simpa using hid⟩
    rw [h] at hany
    cases hany
  rw [hfil]
  rfl

theorem groupPresent_perm (idField : String) (l l2 : List Attr) (i : ℚ)
    (hperm : l.Perm l2) :
    groupPresent idField l i = groupPresent idField l2 i := by
  unfold groupPresent
  cases hl : l.any (fun att => decide (dictGet att idField = some i)) with
  | true =>
      obtain ⟨att, hatt, hp⟩ := List.any_eq_true.mp hl
      exact (List.any_eq_true.mpr ⟨att, hperm.mem_iff.mp hatt, hp⟩).symm
  | false =>
      cases hl2 : l2.any (fun att => decide (dictGet att idField = some i)) with
      | true =>
          obtain ⟨att, hatt, hp⟩ := List.any_eq_true.mp hl2
          rw [← hl]
          exact List.any_eq_true.mpr ⟨att, hperm.mem_iff.mpr hatt, hp⟩
      | false => rfl

theorem sumCounts_perm (idField levelField countField : String)
    (l l2 : List Attr) (i c : ℚ) (hperm : l.Perm l2) :
    sumCounts idField levelField countField l i c =
      sumCounts idField levelField countField l2 i c := by
  unfold sumCounts
  exact List.Perm.sum_eq (List.Perm.filterMap _ (List.Perm.filter _ hperm))

theorem statsInv_insert (cats : List ℚ)
    (idField levelField countField : String) (seen : List Attr)
    (stats : Stats) (att : Attr) (i0 c0 v0 : ℚ) (newRow : List (ℚ × ℚ))
    (hInv : statsInv cats idField levelField countField seen stats)
    (hid : dictGet att idField = some i0)
    (hlvl : dictGet att levelField = some c0)
    (hcnt : dictGet att countField = some v0)
    (hnewRow : ∀ c : ℚ, dictGet newRow c = if c ∈ cats then
        some (sumCounts idField levelField countField (seen ++ [att]) i0 c)
      else none) :
    statsInv cats idField levelField countField (seen ++ [att])
      (dictSet stats i0 newRow) := by
  intro i
  by_cases hi : i0 = i
  · subst hi
    constructor
    · intro hfalse
      rw [groupPresent_append, hid] at hfalse
      simp at hfalse
    · intro _
      exact ⟨newRow, by rw [dictGet_dictSet, if_pos rfl], hnewRow⟩
  · have hgpe : groupPresent idField (seen ++ [att]) i =
        groupPresent idField seen i := by
      rw [groupPresent_append, hid]
      simp [hi]
    constructor
    · intro hfalse
      rw [hgpe] at hfalse
      rw [dictGet_dictSet, if_neg hi]
      exact (hInv i).1 hfalse
    · intro htrue
      rw [hgpe] at htrue
      obtain ⟨row2, hrow2, hrow2lk⟩ := (hInv i).2 htrue
      refine ⟨row2, by rw [dictGet_dictSet, if_neg hi]; exact hrow2, ?_⟩
      intro c
      have hcond : ¬ (dictGet att idField = some i ∧
          dictGet att levelField = some c) := by
        intro hand
        have h1 := hand.1
        rw [hid] at h1
        exact hi (by injection h1)
      rw [hrow2lk c,
        sumCounts_append idField levelField countField seen att i c v0 hcnt,
        if_neg hcond, add_zero]

theorem updated_row_chr (cats : List ℚ)
    (idField levelField countField : String) (seen : List Attr)
    (att : Attr) (i0 c0 v0 : ℚ) (row : List (ℚ × ℚ))
    (hid : dictGet att idField = some i0)
    (hlvl : dictGet att levelField = some c0)
    (hcnt : dictGet att countField = some v0)
    (hc0 : c0 ∈ cats)
    (hrowlk : ∀ c : ℚ, dictGet row c = if c ∈ cats then
        some (sumCounts idField levelField countField seen i0 c) else none) :
    ∀ c : ℚ, dictGet (dictSet row c0
        (sumCounts idField levelField countField seen i0 c0 + v0)) c =
      if c ∈ cats then
        some (sumCounts idField levelField countField (seen ++ [att]) i0 c)
      else none := by
  intro c
  rw [dictGet_dictSet]
  by_cases hc : c0 = c
  · subst hc
    rw [if_pos rfl, if_pos hc0,
      sumCounts_append idField levelField countField seen att i0 c0 v0 hcnt,
      if_pos ⟨hid, hlvl⟩]
  · have hcond : ¬ (dictGet att idField = some i0 ∧
        dictGet att levelField = some c) := by
      intro hand
      have h2 := hand.2
      rw [hlvl] at h2
      exact hc (by injection h2)
    rw [if_neg hc, hrowlk c,
      sumCounts_append idField levelField countField seen att i0 c v0 hcnt,
      if_neg hcond, add_zero]

theorem fresh_row_chr (cats : List ℚ)
    (idField levelField countField : String) (seen : List Attr)
    (att : Attr) (i0 c0 v0 : ℚ)
    (hgp : groupPresent idField seen i0 = false)
    (hid : dictGet att idField = some i0)
    (hlvl : dictGet att levelField = some c0)
    (hcnt : dictGet att countField = some v0)
    (hc0 : c0 ∈ cats) :
    ∀ c : ℚ, dictGet (dictSet (cats.foldl (fun d x => dictSet d x 0) []) c0 v0)
        c =
      if c ∈ cats then
        some (sumCounts idField levelField countField (seen ++ [att]) i0 c)
      else none := by
  intro c
  rw [dictGet_dictSet]
  by_cases hc : c0 = c
  · subst hc
    rw [if_pos rfl, if_pos hc0,
      sumCounts_append idField levelField countField seen att i0 c0 v0 hcnt,
      if_pos ⟨hid, hlvl⟩,
      sumCounts_of_not_present idField levelField countField seen i0 c0 hgp,
      zero_add]
  · have hcond : ¬ (dictGet att idField = some i0 ∧
        dictGet att levelField = some c) := by
      intro hand
      have h2 := hand.2
      rw [hlvl] at h2
      exact hc (by injection h2)
    rw [if_neg hc, dictGet_foldl_zero,
      sumCounts_append idField levelField countField seen att i0 c v0 hcnt,
      if_neg hcond,
      sumCounts_of_not_present idField levelField countField seen i0 c hgp,
      add_zero]
    simp [dictGet]

theorem genStatsAux_chr (cats : List ℚ)
    (idField levelField countField : String) :
    ∀ (l seen : List Attr) (stats : Stats),
      (∀ att ∈ l, (dictGet att idField).isSome = true ∧
        (dictGet att countField).isSome = true ∧
        ∃ c ∈ cats, dictGet att levelField = some c) →
      statsInv cats idField levelField countField seen stats →
      ∃ s2, genStatsAux idField levelField countField
          (cats.foldl (fun d x => dictSet d x 0) []) l stats = .ok s2 ∧
        statsInv cats idField levelField countField (seen ++ l) s2
  | [], seen, stats, _, hInv => ⟨stats, rfl, by simpa using hInv⟩
  | att :: rest, seen, stats, h, hInv => by
      obtain ⟨hid0, hcnt0, c0, hc0, hlvl⟩ := h att (List.mem_cons_self att rest)
      rcases hidg : dictGet att idField with _ | i0
      · rw [hidg] at hid0; cases hid0
      rcases hcntg : dictGet att countField with _ | v0
      · rw [hcntg] at hcnt0; cases hcnt0
      have hrest : ∀ x ∈ rest, (dictGet x idField).isSome = true ∧
          (dictGet x countField).isSome = true ∧
          ∃ c ∈ cats, dictGet x levelField = some c :=
        fun x hx => h x (List.mem_cons_of_mem att hx)
      by_cases hgp : groupPresent idField seen i0 = true
      · obtain ⟨row, hrowg, hrowlk⟩ := (hInv i0).2 hgp
        have hstep : genStatsAux idField levelField countField
            (cats.foldl (fun d x => dictSet d x 0) []) (att :: rest) stats =
          genStatsAux idField levelField countField
            (cats.foldl (fun d x => dictSet d x 0) []) rest
            (dictSet stats i0 (dictSet row c0
              (sumCounts idField levelField countField seen i0 c0 + v0))) := by
          simp only [genStatsAux, hidg, hlvl, hcntg, ofOpt, bind, Except.bind,
            hrowg, Option.bind]
          rw [hrowlk c0, if_pos hc0]
        obtain ⟨s2, hs2, hInv2⟩ := genStatsAux_chr cats idField levelField
          countField rest (seen ++ [att]) _ hrest
          (statsInv_insert cats idField levelField countField seen stats att
            i0 c0 v0 _ hInv hidg hlvl hcntg
            (updated_row_chr cats idField levelField countField seen att
              i0 c0 v0 row hidg hlvl hcntg hc0 hrowlk))
        exact ⟨s2, by rw [hstep]; exact hs2, by simpa using hInv2⟩
      · have hgpf : groupPresent idField seen i0 = false := by
          cases hx : groupPresent idField seen i0
          · rfl
          · exact absurd hx hgp
        have hnone := (hInv i0).1 hgpf
        have hstep : genStatsAux idField levelField countField
            (cats.foldl (fun d x => dictSet d x 0) []) (att :: rest) stats =
          genStatsAux idField levelField countField
            (cats.foldl (fun d x => dictSet d x 0) []) rest
            (dictSet stats i0
              (dictSet (cats.foldl (fun d x => dictSet d x 0) []) c0 v0)) := by
          simp only [genStatsAux, hidg, hlvl, hcntg, ofOpt, bind, Except.bind,
            hnone, Option.bind]
        obtain ⟨s2, hs2, hInv2⟩ := genStatsAux_chr cats idField levelField
          countField rest (seen ++ [att]) _ hrest
          (statsInv_insert cats idField levelField countField seen stats att
            i0 c0 v0 _ hInv hidg hlvl hcntg
            (fresh_row_chr cats idField levelField countField seen att
              i0 c0 v0 hgpf hidg hlvl hcntg hc0))
        exact ⟨s2, by rw [hstep]; exact hs2, by simpa using hInv2⟩

theorem genStats_chr (cats : List ℚ)
    (idField levelField countField : String) (l : List Attr)
    (h : ∀ att ∈ l, (dictGet att idField).isSome = true ∧
      (dictGet att countField).isSome = true ∧
      ∃ c ∈ cats, dictGet att levelField = some c) :
    ∃ s, genStats cats idField levelField countField l = .ok s ∧
      statsInv cats idField levelField countField l s := by
  have hInv0 : statsInv cats idField levelField countField [] [] := by
    intro i
    constructor
    · intro _
      rfl
    · intro htrue
      simp [groupPresent] at htrue
  obtain ⟨s, hs, hInv⟩ :=
    genStatsAux_chr cats idField levelField countField l [] [] h hInv0
  exact ⟨s, hs, by simpa using hInv⟩

/-- C4 amended: `generate_statistics` is order-independent for every
classified layer whose features all carry an id, a count, and a class value
that is one of the configured categories: permuting the feature sequence
yields a statistics table with the same group keys and the same accumulated
total in every cell. -/
theorem generate_statistics_order_independent (cats : List ℚ)
    (idField levelField countField : String) (l l2 : List Attr)
    (hperm : l.Perm l2)
    (hfields : ∀ att ∈ l, (dictGet att idField).isSome = true ∧
      (dictGet att countField).isSome = true ∧
      ∃ c ∈ cats, dictGet att levelField = some c) :
    ∃ s s2, genStats cats idField levelField countField l = .ok s ∧
      genStats cats idField levelField countField l2 = .ok s2 ∧
      (∀ i : ℚ, (dictGet s i).isSome = (dictGet s2 i).isSome) ∧
      (∀ i c : ℚ, (dictGet s i).bind (fun row => dictGet row c) =
        (dictGet s2 i).bind (fun row => dictGet row c)) := by
  obtain ⟨s, hs, hInv⟩ := genStats_chr cats idField levelField countField l hfields
  obtain ⟨s2, hs2, hInv2⟩ := genStats_chr cats idField levelField countField l2
    (fun att hatt => hfields att (hperm.mem_iff.mpr hatt))
  refine ⟨s, s2, hs, hs2, ?_, ?_⟩
  · intro i
    by_cases hgp : groupPresent idField l i = true
    · obtain ⟨row, hrow, -⟩ := (hInv i).2 hgp
      obtain ⟨row2, hrow2, -⟩ := (hInv2 i).2
        (by rw [← groupPresent_perm idField l l2 i hperm]; exact hgp)
      rw [hrow, hrow2]
      rfl
    · have hgpf : groupPresent idField l i = false := by
        cases hx : groupPresent idField l i
        · rfl
        · exact absurd hx hgp
      rw [(hInv i).1 hgpf, (hInv2 i).1
        (by rw [← groupPresent_perm idField l l2 i hperm]; exact hgpf)]
  · intro i c
    by_cases hgp : groupPresent idField l i = true
    · obtain ⟨row, hrow, hrowlk⟩ := (hInv i).2 hgp
      obtain ⟨row2, hrow2, hrow2lk⟩ := (hInv2 i).2
        (by rw [← groupPresent_perm idField l l2 i hperm]; exact hgp)
      rw [hrow, hrow2]
      simp only [Option.bind]
      rw [hrowlk c, hrow2lk c,
        sumCounts_perm idField levelField countField l l2 i c hperm]
    · have hgpf : groupPresent idField l i = false := by
        cases hx : groupPresent idField l i
        · rfl
        · exact absurd hx hgp
      rw [(hInv i).1 hgpf, (hInv2 i).1
        (by rw [← groupPresent_perm idField l l2 i hperm]; exact hgpf)]

/-- C4 counterexample: two classified features with the same id, one of them
carrying the class value 7, which is outside the configured categories
`[-9999, 0, 1, 2, 3]`; swapping the two features changes the accumulated
total of cell (id 1, class 0) from 0 to 5, because the `except KeyError`
branch rebuilds the group row from the zero-filled defaults and wipes the
already accumulated totals. -/
theorem generate_statistics_order_counterexample :
    [statsAttInCat, statsAttOutCat].Perm [statsAttOutCat, statsAttInCat] ∧
    statsGet (genStats [-9999, 0, 1, 2, 3] "id" "haz_level" "pop"
      [statsAttInCat, statsAttOutCat]) 1 0 = some 0 ∧
    statsGet (genStats [-9999, 0, 1, 2, 3] "id" "haz_level" "pop"
      [statsAttOutCat, statsAttInCat]) 1 0 = some 5 := by
  refine ⟨List.Perm.swap statsAttOutCat statsAttInCat [], ?_, ?_⟩
  · simp [statsGet, genStats, genStatsAux, statsAttInCat, statsAttOutCat,
      ofOpt, dictGet, dictSet, bind, Except.bind, Option.bind]
  · simp [statsGet, genStats, genStatsAux, statsAttInCat, statsAttOutCat,
      ofOpt, dictGet, dictSet, bind, Except.bind, Option.bind]

/-- C4 amended witness: two classified features with distinct ids and
in-category classes give the same table totals in either order. -/
theorem generate_statistics_order_independent_witness :
    ∃ s s2, genStats [-9999, 0, 1, 2, 3] "id" "haz_level" "pop"
        [statsAttA, statsAttB] = .ok s ∧
      genStats [-9999, 0, 1, 2, 3] "id" "haz_level" "pop"
        [statsAttB, statsAttA] = .ok s2 ∧
      (∀ i : ℚ, (dictGet s i).isSome = (dictGet s2 i).isSome) ∧
      (∀ i c : ℚ, (dictGet s i).bind (fun row => dictGet row c) =
        (dictGet s2 i).bind (fun row => dictGet row c)) :=
  generate_statistics_order_independent [-9999, 0, 1, 2, 3] "id" "haz_level"
    "pop" [statsAttA, statsAttB] [statsAttB, statsAttA]
    (List.Perm.swap statsAttB statsAttA [])
    (by
      intro att hatt
      simp only [List.mem_cons, List.not_mem_nil, or_false] at hatt
      rcases hatt with h1 | h1 <;> subst h1
      · refine ⟨by simp [statsAttA, dictGet], by simp [statsAttA, dictGet],
          0, by norm_num, by simp [statsAttA, dictGet]⟩
      · refine ⟨by simp [statsAttB, dictGet], by simp [statsAttB, dictGet],
          1, by norm_num, by simp [statsAttB, dictGet]⟩)
